import Mathlib

/-!
Verification of the render-state synchronization engine of the Mudkip
markdown viewer (`src/main.js`), as a shallow embedding in Lean 4.

The embedding follows the source file function by function:
* scroll-ratio capture/restore (`getPreviewScrollRatio`,
  `restorePreviewScrollRatio`);
* the source-line attachment plugin (`markdownSourceLinePlugin`);
* the watch synchronizers (`syncAutoRefreshWatcher`, `syncFolderWatcher`);
* the render/session transitions (`renderDesktopPayload`,
  `updateFolderFilesList`, `applyFolderPayload`, the `onFileChanged` and
  `onFolderChanged` handlers);
* the geometry mapper (`getCurrentSourceLine`, here `resolveLine`).

Pixel coordinates and scroll offsets are modelled as rationals (the browser
computes them in doubles; the algorithms use no float-specific behavior on
the inputs considered here), and source lines as integers.  JavaScript
truthiness of an optional string (null / undefined / empty string are all
falsy) is modelled by `optFalsy`.
-/

/-- JavaScript truthiness test for an optional string: `null`/missing and
the empty string are falsy. -/
def optFalsy : Option String → Bool
  | none => true
  | some s => s = ""

/-! ## Scroll ratio capture / restore -/

/-- The scroll geometry of the preview element: `scrollTop`,
`scrollHeight`, `clientHeight`. -/
structure ScrollState where
  scrollTop : ℚ
  scrollHeight : ℚ
  clientHeight : ℚ
deriving DecidableEq, Repr

/-- `getPreviewScrollRatio` from `src/main.js`: `scrollTop / (scrollHeight -
clientHeight)`, or `0` when the content does not overflow. -/
def getPreviewScrollRatio (s : ScrollState) : ℚ :=
  let maxScroll := s.scrollHeight - s.clientHeight
  if maxScroll ≤ 0 then 0 else s.scrollTop / maxScroll

/-- `restorePreviewScrollRatio` from `src/main.js`: the new `scrollTop`
after restoring `ratio` — `0` when the content does not overflow, otherwise
`maxScroll * ratio` clamped to `[0, maxScroll]`. -/
def restorePreviewScrollRatio (s : ScrollState) (ratio : ℚ) : ℚ :=
  let maxScroll := s.scrollHeight - s.clientHeight
  if maxScroll ≤ 0 then 0 else max 0 (min maxScroll (maxScroll * ratio))

/-- C7: capture-then-restore is the identity on the scroll offset when the
content is unchanged, given the DOM invariant that `scrollTop` lies in
`[0, max 0 (scrollHeight - clientHeight)]`. -/
theorem restore_capture_roundTrip (s : ScrollState)
    (h0 : 0 ≤ s.scrollTop)
    (h1 : s.scrollTop ≤ max 0 (s.scrollHeight - s.clientHeight)) :
    restorePreviewScrollRatio s (getPreviewScrollRatio s) = s.scrollTop := by
  unfold restorePreviewScrollRatio getPreviewScrollRatio
  by_cases hm : s.scrollHeight - s.clientHeight ≤ 0
  · simp only [hm, if_true]
    have hmax : max 0 (s.scrollHeight - s.clientHeight) = 0 := max_eq_left hm
    rw [hmax] at h1
    linarith
  · simp only [hm, if_false]
    have hpos : 0 < s.scrollHeight - s.clientHeight := lt_of_not_ge hm
    have htop : s.scrollTop ≤ s.scrollHeight - s.clientHeight := by
      have := h1
      rwa [max_eq_right (le_of_lt hpos)] at this
    rw [mul_div_cancel₀ _ (ne_of_gt hpos)]
    rw [min_eq_right htop, max_eq_right h0]

/-- Witness for C7 at a concrete geometry. -/
theorem restore_capture_roundTrip_witness :
    restorePreviewScrollRatio ⟨30, 100, 40⟩ (getPreviewScrollRatio ⟨30, 100, 40⟩) = 30 :=
  restore_capture_roundTrip ⟨30, 100, 40⟩ (by norm_num) (by norm_num)

/-- C10: for every real input ratio (also below 0 or above 1), the restored
offset lies in `[0, scrollHeight - clientHeight]` when the content
overflows, and equals 0 when it does not. -/
theorem restore_ratio_safe (s : ScrollState) (ratio : ℚ) :
    (s.clientHeight < s.scrollHeight →
      0 ≤ restorePreviewScrollRatio s ratio ∧
      restorePreviewScrollRatio s ratio ≤ s.scrollHeight - s.clientHeight) ∧
    (s.scrollHeight ≤ s.clientHeight → restorePreviewScrollRatio s ratio = 0) := by
  unfold restorePreviewScrollRatio
  constructor
  · intro hov
    have hm : ¬ (s.scrollHeight - s.clientHeight ≤ 0) := by
      intro h; exact absurd (by linarith : s.scrollHeight ≤ s.clientHeight) (not_le_of_lt hov)
    simp only [hm, if_false]
    refine ⟨le_max_left _ _, ?_⟩
    exact max_le (by linarith) (min_le_left _ _)
  · intro hfit
    have hm : s.scrollHeight - s.clientHeight ≤ 0 := by linarith
    simp only [hm, if_true]

/-- Witness for C10 at a concrete geometry and an out-of-range ratio. -/
theorem restore_ratio_safe_witness :
    0 ≤ restorePreviewScrollRatio ⟨0, 100, 40⟩ (7/2) ∧
    restorePreviewScrollRatio ⟨0, 100, 40⟩ (7/2) ≤ 60 := by
  have h := (restore_ratio_safe ⟨0, 100, 40⟩ (7/2)).1 (by norm_num)
  refine ⟨h.1, ?_⟩
  have h2 := h.2
  norm_num at h2
  exact h2

/-! ## Source-line attachment plugin (`markdownSourceLinePlugin`) -/

/-- A markdown-it token as seen by the `attach_source_lines` core rule:
its type name, nesting direction, optional source map `[startLine, endLine]`
(0-indexed), and attribute list. -/
structure Token where
  type : String
  nesting : Int
  map : Option (Nat × Nat)
  attrs : List (String × String)
deriving DecidableEq, Repr

/-- JavaScript's `String.prototype.endsWith`, expressed on the character
list of the string so that it is kernel-computable. -/
def strEndsWith (s suffix : String) : Bool :=
  suffix.data.isSuffixOf s.data

/-- markdown-it's `Token.attrSet`: replace the first attribute with the
given name, or append a new one. -/
def attrSet : List (String × String) → String → String → List (String × String)
  | [], n, v => [(n, v)]
  | a :: rest, n, v => if a.1 = n then (n, v) :: rest else a :: attrSet rest n v

/-- Look up the first attribute with the given name. -/
def attrGet (attrs : List (String × String)) (n : String) : Option String :=
  (attrs.find? (fun a => a.1 = n)).map (fun a => a.2)

/-- The per-token body of the `attach_source_lines` rule: on an opening
block token that has a source map, attach `data-source-line` =
`startLine + 1` and `data-source-line-end` = `max (startLine + 1) endLine`. -/
def attachSourceLineAttrs (t : Token) : Token :=
  match t.map with
  | none => t
  | some (startLine, endLine) =>
    if t.nesting = 1 ∧ strEndsWith t.type "_open" then
      let withStart := attrSet t.attrs "data-source-line" (toString (startLine + 1))
      let withEnd := attrSet withStart "data-source-line-end" (toString (max (startLine + 1) endLine))
      { t with attrs := withEnd }
    else t

/-- `markdownSourceLinePlugin`'s core rule over a whole token stream. -/
def attachSourceLines (tokens : List Token) : List Token :=
  tokens.map attachSourceLineAttrs

theorem attrGet_attrSet_same (attrs : List (String × String)) (n v : String) :
    attrGet (attrSet attrs n v) n = some v := by
  induction attrs with
  | nil => simp [attrSet, attrGet, List.find?]
  | cons a rest ih =>
    by_cases h : a.1 = n
    · simp [attrSet, h, attrGet, List.find?]
    · simp only [attrSet, h, if_false]
      simpa [attrGet, List.find?, h] using ih

theorem attrGet_attrSet_ne (attrs : List (String × String)) (m n v : String)
    (h : m ≠ n) : attrGet (attrSet attrs m v) n = attrGet attrs n := by
  induction attrs with
  | nil => simp [attrSet, attrGet, List.find?, h]
  | cons a rest ih =>
    by_cases ha : a.1 = m
    · simp [attrSet, ha, attrGet, List.find?, h, Ne.symm h]
    · simp only [attrSet, ha, if_false]
      by_cases hn : a.1 = n
      · simp [attrGet, List.find?, hn]
      · simpa [attrGet, List.find?, hn] using ih

/-- C6: every opening block token with a source map gets
`data-source-line = startLine + 1` and
`data-source-line-end = max (startLine + 1) endLine` attached by the
plugin, and the annotated range is non-empty: end ≥ start, even for a
zero-width map entry. -/
theorem sourceLine_attrs_sound (tokens : List Token) (t : Token)
    (ht : t ∈ tokens) (s e : Nat) (hmap : t.map = some (s, e))
    (hnest : t.nesting = 1) (hopen : strEndsWith t.type "_open" = true) :
    attachSourceLineAttrs t ∈ attachSourceLines tokens ∧
    attrGet (attachSourceLineAttrs t).attrs "data-source-line" =
      some (toString (s + 1)) ∧
    attrGet (attachSourceLineAttrs t).attrs "data-source-line-end" =
      some (toString (max (s + 1) e)) ∧
    s + 1 ≤ max (s + 1) e := by
  refine ⟨List.mem_map_of_mem _ ht, ?_, ?_, le_max_left _ _⟩
  · unfold attachSourceLineAttrs
    rw [hmap]
    simp only [hnest, hopen, and_self, if_true]
    rw [attrGet_attrSet_ne _ _ _ _ (by decide)]
    exact attrGet_attrSet_same _ _ _
  · unfold attachSourceLineAttrs
    rw [hmap]
    simp only [hnest, hopen, and_self, if_true]
    exact attrGet_attrSet_same _ _ _

/-- Witness for C6 at a concrete single-line token (zero-width map entry). -/
theorem sourceLine_attrs_sound_witness :
    attrGet (attachSourceLineAttrs ⟨"paragraph_open", 1, some (4, 4), []⟩).attrs
      "data-source-line" = some "5" ∧
    attrGet (attachSourceLineAttrs ⟨"paragraph_open", 1, some (4, 4), []⟩).attrs
      "data-source-line-end" = some "5" := by
  have h := sourceLine_attrs_sound [⟨"paragraph_open", 1, some (4, 4), []⟩]
    ⟨"paragraph_open", 1, some (4, 4), []⟩ (by simp) 4 4 rfl rfl (by decide)
  exact ⟨h.2.1, by simpa using h.2.2.1⟩

/-! ## Document session state and watch synchronizers -/

/-- `currentOpenMode` in `src/main.js`: `"single-file"` or `"folder"`. -/
inductive OpenMode where
  | singleFile
  | folder
deriving DecidableEq, Repr

/-- One entry of a folder listing payload (`{fileName, filePath}`); either
field may be absent. -/
structure FolderEntry where
  fileName : Option String
  filePath : Option String
deriving DecidableEq, Repr

/-- Which optional functions the desktop API bridge exposes (`typeof
desktopAPI.x === "function"` checks in the source). -/
structure APIAvail where
  hasStartAutoRefreshWatch : Bool
  hasStopAutoRefreshWatch : Bool
  hasStartFolderWatch : Bool
  hasStopFolderWatch : Bool
deriving DecidableEq, Repr

/-- A watch start/stop call issued to the desktop API. -/
inductive WatchCall where
  | startFile (path : String)
  | stopFile
  | startFolder (path : String)
  | stopFolder
deriving DecidableEq, Repr

/-- The mutable renderer state of `src/main.js`: the document-session
variables (`currentFilePath`, `currentFolderPath`, `currentOpenMode`,
`folderFiles`, `autoRefreshEnabled`) together with the visible surface
(rendered content, base href, file-name label, button/panel states, scroll
geometry). -/
structure AppState where
  currentFilePath : Option String
  currentFolderPath : Option String
  currentOpenMode : OpenMode
  folderFiles : List FolderEntry
  autoRefreshEnabled : Bool
  content : String
  baseHref : String
  fileNameText : String
  openVSCodeDisabled : Bool
  folderPanelVisible : Bool
  folderPanelOpen : Bool
  scroll : ScrollState
deriving DecidableEq, Repr

/-- `syncAutoRefreshWatcher` from `src/main.js`, as the list of watch calls
it issues: start the file watch when auto-refresh is enabled, a file path
is set and the start function exists; otherwise stop it (when the stop
function exists). -/
def syncAutoRefreshWatcher (api : Option APIAvail) (st : AppState) : List WatchCall :=
  match api with
  | none => []
  | some a =>
    if ¬ st.autoRefreshEnabled ∨ optFalsy st.currentFilePath ∨ ¬ a.hasStartAutoRefreshWatch then
      if a.hasStopAutoRefreshWatch then [WatchCall.stopFile] else []
    else [WatchCall.startFile (st.currentFilePath.getD "")]

/-- `syncFolderWatcher` from `src/main.js`, as the list of watch calls it
issues: start the folder watch when in folder mode with a folder path and
the start function exists; otherwise stop it. -/
def syncFolderWatcher (api : Option APIAvail) (st : AppState) : List WatchCall :=
  match api with
  | none => []
  | some a =>
    if st.currentOpenMode ≠ OpenMode.folder ∨ optFalsy st.currentFolderPath ∨ ¬ a.hasStartFolderWatch then
      if a.hasStopFolderWatch then [WatchCall.stopFolder] else []
    else [WatchCall.startFolder (st.currentFolderPath.getD "")]

/-- The fully-featured desktop API bridge. -/
def fullAPI : APIAvail := ⟨true, true, true, true⟩

/-- C2: with the full desktop API, the file-watch reconciliation issues
exactly one call — start iff auto-refresh is enabled and a file path is
set (independently of the open mode) — and the folder-watch reconciliation
issues exactly one call — start iff mode is Folder and a folder path is
set; never both start and stop for the same kind in one run. -/
theorem watch_sync_reconciliation (a : APIAvail) (st : AppState)
    (hfull : a = fullAPI) :
    (syncAutoRefreshWatcher (some a) st =
      if st.autoRefreshEnabled ∧ ¬ optFalsy st.currentFilePath
      then [WatchCall.startFile (st.currentFilePath.getD "")]
      else [WatchCall.stopFile]) ∧
    (syncFolderWatcher (some a) st =
      if st.currentOpenMode = OpenMode.folder ∧ ¬ optFalsy st.currentFolderPath
      then [WatchCall.startFolder (st.currentFolderPath.getD "")]
      else [WatchCall.stopFolder]) ∧
    (∀ m, syncAutoRefreshWatcher (some a) { st with currentOpenMode := m } =
      syncAutoRefreshWatcher (some a) st) ∧
    (syncAutoRefreshWatcher (some a) st).length = 1 ∧
    (syncFolderWatcher (some a) st).length = 1 := by
  subst hfull
  have hfile : syncAutoRefreshWatcher (some fullAPI) st =
      if st.autoRefreshEnabled ∧ ¬ optFalsy st.currentFilePath
      then [WatchCall.startFile (st.currentFilePath.getD "")]
      else [WatchCall.stopFile] := by
    unfold syncAutoRefreshWatcher fullAPI
    by_cases h1 : st.autoRefreshEnabled <;>
      by_cases h2 : optFalsy st.currentFilePath <;>
      simp [h1, h2]
  have hfolder : syncFolderWatcher (some fullAPI) st =
      if st.currentOpenMode = OpenMode.folder ∧ ¬ optFalsy st.currentFolderPath
      then [WatchCall.startFolder (st.currentFolderPath.getD "")]
      else [WatchCall.stopFolder] := by
    unfold syncFolderWatcher fullAPI
    by_cases h1 : st.currentOpenMode = OpenMode.folder <;>
      by_cases h2 : optFalsy st.currentFolderPath <;>
      simp [h1, h2]
  refine ⟨hfile, hfolder, ?_, ?_, ?_⟩
  · intro m
    unfold syncAutoRefreshWatcher
    rfl
  · rw [hfile]
    split <;> simp
  · rw [hfolder]
    split <;> simp

/-- A concrete session state used by the witnesses: folder mode, active
file `/docs/a.md` inside folder `/docs`, auto-refresh on. -/
def sampleFolderState : AppState where
  currentFilePath := some "/docs/a.md"
  currentFolderPath := some "/docs"
  currentOpenMode := OpenMode.folder
  folderFiles := [⟨some "a.md", some "/docs/a.md"⟩]
  autoRefreshEnabled := true
  content := "# A"
  baseHref := "./"
  fileNameText := "a.md"
  openVSCodeDisabled := false
  folderPanelVisible := true
  folderPanelOpen := true
  scroll := ⟨30, 100, 40⟩

/-- Witness for C2: in `sampleFolderState` both watches are started, one
call each. -/
theorem watch_sync_reconciliation_witness :
    syncAutoRefreshWatcher (some fullAPI) sampleFolderState =
      [WatchCall.startFile "/docs/a.md"] ∧
    syncFolderWatcher (some fullAPI) sampleFolderState =
      [WatchCall.startFolder "/docs"] := by
  have h := watch_sync_reconciliation fullAPI sampleFolderState rfl
  refine ⟨?_, ?_⟩
  · rw [h.1]
    decide
  · rw [h.2.1]
    decide

/-! ## Desktop payload rendering and the file-changed handler -/

/-- A file payload delivered by the desktop bridge
(`{content, fileName, filePath, baseHref}`). -/
structure FilePayload where
  filePath : Option String
  fileName : Option String
  content : String
  baseHref : Option String
deriving DecidableEq, Repr

/-- Options of `renderDesktopPayload` (`{preserveScroll, syncWatcher}`). -/
structure RenderOpts where
  preserveScroll : Bool
  syncWatcher : Bool
deriving DecidableEq, Repr

/-- Observable side effects of one render-payload invocation. -/
structure RenderEffects where
  didRender : Bool
  scrollRatioRestored : Option ℚ
  fileWatchCalls : List WatchCall
deriving DecidableEq, Repr

/-- No side effects. -/
def noRenderEffects : RenderEffects := ⟨false, none, []⟩

/-- `renderDesktopPayload` from `src/main.js`: render the payload content
(capturing the scroll ratio first and restoring it afterwards when
`preserveScroll` is set), update the file-name label, set
`currentFilePath` from the payload, enable/disable the open-in-VS-Code
button, and reconcile the auto-refresh watch unless `syncWatcher` is
`false`. -/
def renderDesktopPayload (api : Option APIAvail) (st : AppState)
    (payload : Option FilePayload) (opts : RenderOpts) : AppState × RenderEffects :=
  match payload with
  | none => (st, noRenderEffects)
  | some p =>
    let prevRatio := if opts.preserveScroll then some (getPreviewScrollRatio st.scroll) else none
    let st1 := { st with
      content := p.content
      baseHref := p.baseHref.getD "./"
      fileNameText := p.fileName.getD "Unknown"
      currentFilePath := p.filePath
      openVSCodeDisabled := optFalsy p.filePath }
    let calls := if opts.syncWatcher then syncAutoRefreshWatcher api st1 else []
    (st1, ⟨true, prevRatio, calls⟩)

/-- The `onFileChanged` subscription handler in `bindExternalOpenEvents`:
ignore the notification unless its `filePath` is present and equal to the
currently active file path; otherwise re-render with
`{preserveScroll: true, syncWatcher: false}`. -/
def onFileChangedHandler (api : Option APIAvail) (st : AppState)
    (payload : Option FilePayload) : AppState × RenderEffects :=
  match payload with
  | none => (st, noRenderEffects)
  | some p =>
    if optFalsy p.filePath ∨ p.filePath ≠ st.currentFilePath then (st, noRenderEffects)
    else renderDesktopPayload api st (some p) ⟨true, false⟩

/-- C3: a file-changed notification is applied iff its file path is present
and equals the active file path.  A missing payload, a missing/empty file
path, or a non-matching path leaves the state unchanged with no render; a
matching notification re-renders with the scroll ratio captured from the
pre-render state and restored after, leaves `currentFilePath` unchanged,
and issues no watch-reconciliation call. -/
theorem fileChanged_staleness (api : Option APIAvail) (st : AppState) (p : FilePayload) :
    (onFileChangedHandler api st none = (st, noRenderEffects)) ∧
    (optFalsy p.filePath ∨ p.filePath ≠ st.currentFilePath →
      onFileChangedHandler api st (some p) = (st, noRenderEffects)) ∧
    (¬ optFalsy p.filePath → p.filePath = st.currentFilePath →
      (onFileChangedHandler api st (some p)).2.didRender = true ∧
      (onFileChangedHandler api st (some p)).2.scrollRatioRestored =
        some (getPreviewScrollRatio st.scroll) ∧
      (onFileChangedHandler api st (some p)).1.currentFilePath = st.currentFilePath ∧
      (onFileChangedHandler api st (some p)).2.fileWatchCalls = []) := by
  refine ⟨rfl, ?_, ?_⟩
  · intro h
    unfold onFileChangedHandler
    simp only [h, if_true]
  · intro hfalsy heq
    have hcond : ¬ (optFalsy p.filePath ∨ p.filePath ≠ st.currentFilePath) := by
      push_neg
      exact ⟨by simpa using hfalsy, heq⟩
    simp only [onFileChangedHandler, renderDesktopPayload, if_neg hcond]
    simp [heq]

/-- Witness for C3: in `sampleFolderState`, a stale notification for
`/other.md` is dropped and a matching notification for `/docs/a.md`
re-renders with the captured ratio, no watch call. -/
theorem fileChanged_staleness_witness :
    (onFileChangedHandler (some fullAPI) sampleFolderState
        (some ⟨some "/other.md", some "other.md", "# O", none⟩) =
      (sampleFolderState, noRenderEffects)) ∧
    ((onFileChangedHandler (some fullAPI) sampleFolderState
        (some ⟨some "/docs/a.md", some "a.md", "# A2", none⟩)).2.didRender = true ∧
      (onFileChangedHandler (some fullAPI) sampleFolderState
        (some ⟨some "/docs/a.md", some "a.md", "# A2", none⟩)).2.fileWatchCalls = []) := by
  constructor
  · exact (fileChanged_staleness (some fullAPI) sampleFolderState
      ⟨some "/other.md", some "other.md", "# O", none⟩).2.1 (by decide)
  · have h := (fileChanged_staleness (some fullAPI) sampleFolderState
      ⟨some "/docs/a.md", some "a.md", "# A2", none⟩).2.2 (by decide) (by decide)
    exact ⟨h.1, h.2.2.2⟩

/-! ## Folder mode: listing, payload application, folder-changed handler -/

/-- A folder payload (`{folderPath, files}`); `files` may be absent or not
an array, in which case it is treated as empty. -/
structure FolderPayload where
  folderPath : Option String
  files : Option (List FolderEntry)
deriving DecidableEq, Repr

/-- Options of `applyFolderPayload`
(`{selectedFilePath, preserveSelection, openPanel}`). -/
structure FolderOpts where
  selectedFilePath : Option String
  preserveSelection : Bool
  openPanel : Bool
deriving DecidableEq, Repr

/-- The file paths that actually appear in the folder panel listing:
entries without a (truthy) `filePath` are skipped by
`updateFolderFilesList`. -/
def listedPaths (files : List FolderEntry) : List String :=
  files.filterMap (fun f =>
    match f.filePath with
    | none => none
    | some s => if s = "" then none else some s)

/-- `updateFolderFilesList` from `src/main.js`, as its
`(hasFiles, hasSelection)` result: an empty raw list or a list whose
entries all lack a file path yields `(false, false)`; otherwise
`hasSelection` holds iff the selected path is truthy and matches some
listed entry. -/
def updateFolderFilesList (files : List FolderEntry) (selectedPath : Option String) :
    Bool × Bool :=
  if files = [] then (false, false)
  else
    let listed := listedPaths files
    if listed = [] then (false, false)
    else (true, ¬ optFalsy selectedPath ∧ listed.contains (selectedPath.getD ""))

/-- The markdown rendered by `renderFolderEmptyState`. -/
def emptyFolderMarkdown : String :=
  "## No Markdown files found\n\nThis folder does not currently contain markdown files."

/-- The markdown rendered by `renderFolderSelectionPrompt`. -/
def selectFileMarkdown : String :=
  "## Select a Markdown file\n\nUse the folder files panel on the right to pick a file."

/-- `renderFolderEmptyState` from `src/main.js`: render the "no documents"
placeholder, clear `currentFilePath`, disable the open-in-VS-Code button,
and reconcile the (now stopping) auto-refresh watch. -/
def renderFolderEmptyState (api : Option APIAvail) (st : AppState) :
    AppState × List WatchCall :=
  let st1 := { st with
    content := emptyFolderMarkdown
    baseHref := "./"
    fileNameText := "No Markdown files in folder"
    currentFilePath := none
    openVSCodeDisabled := true }
  (st1, syncAutoRefreshWatcher api st1)

/-- `renderFolderSelectionPrompt` from `src/main.js`: render the "select a
file" placeholder, clear `currentFilePath`, disable the open-in-VS-Code
button, and reconcile the (now stopping) auto-refresh watch. -/
def renderFolderSelectionPrompt (api : Option APIAvail) (st : AppState) :
    AppState × List WatchCall :=
  let st1 := { st with
    content := selectFileMarkdown
    baseHref := "./"
    fileNameText := "No file selected"
    currentFilePath := none
    openVSCodeDisabled := true }
  (st1, syncAutoRefreshWatcher api st1)

/-- Observable outcome of one `applyFolderPayload` invocation. -/
structure FolderEffects where
  renderedMarkdown : Option String
  hasSelection : Bool
  folderWatchCalls : List WatchCall
  fileWatchCalls : List WatchCall
deriving DecidableEq, Repr

/-- No folder-transition effects. -/
def noFolderEffects : FolderEffects := ⟨none, false, [], []⟩

/-- `applyFolderPayload` from `src/main.js`: switch to folder mode, take
the folder path and raw entry list from the payload, compute the preferred
selection (`options.selectedFilePath`, else the previous `currentFilePath`
when `preserveSelection` is not `false`), rebuild the listing, reconcile
the folder watch, and then keep the current document (selection found),
render the empty-folder placeholder (no listed files), or render the
select-a-file prompt. -/
def applyFolderPayload (api : Option APIAvail) (st : AppState)
    (payload : Option FolderPayload) (opts : FolderOpts) : AppState × FolderEffects :=
  match payload with
  | none => (st, noFolderEffects)
  | some p =>
    let st1 := { st with
      currentOpenMode := OpenMode.folder
      currentFolderPath := p.folderPath
      folderPanelVisible := true }
    let preferred : Option String :=
      match opts.selectedFilePath with
      | some s => some s
      | none =>
        if opts.preserveSelection ∧ ¬ optFalsy st.currentFilePath
        then st.currentFilePath else none
    let files := p.files.getD []
    let st2 := { st1 with folderFiles := files }
    let hf := updateFolderFilesList files preferred
    let folderCalls := syncFolderWatcher api st2
    if hf.2 then
      (if opts.openPanel then { st2 with folderPanelOpen := true } else st2,
        ⟨none, true, folderCalls, []⟩)
    else if ¬ hf.1 then
      let r := renderFolderEmptyState api st2
      ({ r.1 with folderPanelOpen := true },
        ⟨some emptyFolderMarkdown, false, folderCalls, r.2⟩)
    else
      let r := renderFolderSelectionPrompt api st2
      ({ r.1 with folderPanelOpen := true },
        ⟨some selectFileMarkdown, false, folderCalls, r.2⟩)

/-- The `onFolderChanged` subscription handler in `bindExternalOpenEvents`:
ignore the notification unless in folder mode with a matching folder path;
otherwise reconcile the listing preserving the current selection. -/
def onFolderChangedHandler (api : Option APIAvail) (st : AppState)
    (payload : Option FolderPayload) : AppState × FolderEffects :=
  match payload with
  | none => (st, noFolderEffects)
  | some p =>
    if optFalsy p.folderPath ∨ st.currentOpenMode ≠ OpenMode.folder ∨
        p.folderPath ≠ st.currentFolderPath then
      (st, noFolderEffects)
    else applyFolderPayload api st (some p) ⟨none, true, false⟩

theorem listedPaths_eq_nil_of_allFalsy (files : List FolderEntry)
    (hall : ∀ f ∈ files, optFalsy f.filePath = true) : listedPaths files = [] := by
  unfold listedPaths
  rw [List.filterMap_eq_nil_iff]
  intro f hf
  have := hall f hf
  match hfp : f.filePath with
  | none => simp
  | some s =>
    rw [hfp] at this
    simp only [optFalsy, decide_eq_true_eq] at this
    simp [this]

theorem updateFolderFilesList_sel_none (files : List FolderEntry) :
    (updateFolderFilesList files none).2 = false := by
  unfold updateFolderFilesList
  split
  · rfl
  · by_cases h : listedPaths files = []
    · simp [h]
    · simp [h, optFalsy]

/-- C8: reconciling a zero-entry folder listing for the active folder while
in folder mode renders the "no documents" placeholder, clears the active
file path, disables the open-in-VS-Code affordance, stops the file watch,
and keeps the folder watch active. -/
theorem folder_empty_reconcile (api : Option APIAvail) (st : AppState) (d : String)
    (hapi : api = some fullAPI)
    (hmode : st.currentOpenMode = OpenMode.folder)
    (hpath : st.currentFolderPath = some d)
    (hne : d ≠ "") :
    (onFolderChangedHandler api st (some ⟨some d, some []⟩)).2.renderedMarkdown =
      some emptyFolderMarkdown ∧
    (onFolderChangedHandler api st (some ⟨some d, some []⟩)).1.currentFilePath = none ∧
    (onFolderChangedHandler api st (some ⟨some d, some []⟩)).1.openVSCodeDisabled = true ∧
    (onFolderChangedHandler api st (some ⟨some d, some []⟩)).2.fileWatchCalls =
      [WatchCall.stopFile] ∧
    (onFolderChangedHandler api st (some ⟨some d, some []⟩)).2.folderWatchCalls =
      [WatchCall.startFolder d] := by
  subst hapi
  have hguard : ¬ (optFalsy (some d) ∨ st.currentOpenMode ≠ OpenMode.folder ∨
      (some d : Option String) ≠ st.currentFolderPath) := by
    push_neg
    refine ⟨?_, hmode, hpath.symm⟩
    simp [optFalsy, hne]
  simp only [onFolderChangedHandler, if_neg hguard]
  simp [applyFolderPayload, updateFolderFilesList, listedPaths, renderFolderEmptyState,
    syncFolderWatcher, syncAutoRefreshWatcher, optFalsy, fullAPI, hne]

/-- Witness for C8 at `sampleFolderState` with an empty listing for
`/docs`. -/
theorem folder_empty_reconcile_witness :
    (onFolderChangedHandler (some fullAPI) sampleFolderState
      (some ⟨some "/docs", some []⟩)).2.renderedMarkdown = some emptyFolderMarkdown ∧
    (onFolderChangedHandler (some fullAPI) sampleFolderState
      (some ⟨some "/docs", some []⟩)).2.fileWatchCalls = [WatchCall.stopFile] ∧
    (onFolderChangedHandler (some fullAPI) sampleFolderState
      (some ⟨some "/docs", some []⟩)).2.folderWatchCalls = [WatchCall.startFolder "/docs"] := by
  have h := folder_empty_reconcile (some fullAPI) sampleFolderState "/docs" rfl rfl rfl
    (by decide)
  exact ⟨h.1, h.2.2.2.1, h.2.2.2.2⟩

/-- C9: folder entries without a (truthy) file path are skipped when the
listing is built, and a non-empty payload whose entries all lack a file
path behaves exactly like an empty folder: empty-folder placeholder,
cleared active file path, disabled editor-jump affordance. -/
theorem allFalsy_entries_like_empty (api : Option APIAvail) (st : AppState)
    (p : FolderPayload) (files : List FolderEntry) (opts : FolderOpts)
    (hfiles : p.files = some files)
    (hall : ∀ f ∈ files, optFalsy f.filePath = true) :
    (∀ s : String, s ∈ listedPaths files ↔ ∃ f ∈ files, f.filePath = some s ∧ s ≠ "") ∧
    ((applyFolderPayload api st (some p) opts).2.renderedMarkdown =
      some emptyFolderMarkdown ∧
     (applyFolderPayload api st (some p) opts).1.currentFilePath = none ∧
     (applyFolderPayload api st (some p) opts).1.openVSCodeDisabled = true) := by
  constructor
  · intro s
    unfold listedPaths
    rw [List.mem_filterMap]
    constructor
    · rintro ⟨f, hf, hsome⟩
      refine ⟨f, hf, ?_⟩
      match hfp : f.filePath with
      | none => rw [hfp] at hsome; simp at hsome
      | some t =>
        rw [hfp] at hsome
        by_cases ht : t = ""
        · simp [ht] at hsome
        · simp only [ht, if_false] at hsome
          cases hsome
          exact ⟨rfl, ht⟩
    · rintro ⟨f, hf, hfp, hs⟩
      exact ⟨f, hf, by simp [hfp, hs]⟩
  · have hnil : listedPaths files = [] := listedPaths_eq_nil_of_allFalsy files hall
    have hupd : ∀ sel, updateFolderFilesList files sel = (false, false) := by
      intro sel
      unfold updateFolderFilesList
      split
      · rfl
      · rw [hnil]
        simp
    simp [applyFolderPayload, hfiles, hupd, renderFolderEmptyState]

/-- Witness for C9: a single entry with `filePath: null` is treated like an
empty folder. -/
theorem allFalsy_entries_like_empty_witness :
    ("x" ∈ listedPaths [⟨some "ghost.md", none⟩] ↔
      ∃ f ∈ [(⟨some "ghost.md", none⟩ : FolderEntry)], f.filePath = some "x" ∧ "x" ≠ "") ∧
    (applyFolderPayload (some fullAPI) sampleFolderState
      (some ⟨some "/docs", some [⟨some "ghost.md", none⟩]⟩)
      ⟨none, true, false⟩).1.currentFilePath = none := by
  have h := allFalsy_entries_like_empty (some fullAPI) sampleFolderState
    ⟨some "/docs", some [⟨some "ghost.md", none⟩]⟩ [⟨some "ghost.md", none⟩]
    ⟨none, true, false⟩ rfl (by decide)
  exact ⟨h.1 "x", h.2.2.1⟩

/-- A single-file-mode state with `/docs/a.md` open via the desktop
bridge, prior to opening a folder. -/
def priorSingleFileState : AppState where
  currentFilePath := some "/docs/a.md"
  currentFolderPath := none
  currentOpenMode := OpenMode.singleFile
  folderFiles := []
  autoRefreshEnabled := true
  content := "# A"
  baseHref := "./"
  fileNameText := "a.md"
  openVSCodeDisabled := false
  folderPanelVisible := false
  folderPanelOpen := false
  scroll := ⟨0, 100, 40⟩

/-- A folder payload for `/docs` whose listing contains the previously
active file `/docs/a.md`. -/
def docsFolderPayload : FolderPayload :=
  ⟨some "/docs", some [⟨some "a.md", some "/docs/a.md"⟩]⟩

/-- C4 counterexample: opening `/docs` through the folder dialog path
(`preserveSelection: false`, `openPanel: true`) while `/docs/a.md` is the
active file and is present in the new listing does NOT re-select it — the
selection is empty and `currentFilePath` is cleared, contradicting "select
entry = previous activeFilePath if still present". -/
theorem enterFolderMode_noPreserve_cex :
    priorSingleFileState.currentFilePath = some "/docs/a.md" ∧
    "/docs/a.md" ∈ listedPaths (docsFolderPayload.files.getD []) ∧
    (applyFolderPayload (some fullAPI) priorSingleFileState (some docsFolderPayload)
      ⟨none, false, true⟩).2.hasSelection = false ∧
    (applyFolderPayload (some fullAPI) priorSingleFileState (some docsFolderPayload)
      ⟨none, false, true⟩).1.currentFilePath = none := by
  refine ⟨rfl, ?_, ?_, ?_⟩ <;> decide

/-- C4 (amended): every folder-mode entry through the dialog or an
external folder open (`selectedFilePath` unset, `preserveSelection` =
`false`) sets mode to Folder and takes the folder path and entries from
the payload, but the resulting selection is empty and `currentFilePath` is
cleared regardless of the previous active file. -/
theorem enterFolderMode_fresh (api : Option APIAvail) (st : AppState)
    (p : FolderPayload) (opts : FolderOpts)
    (hsel : opts.selectedFilePath = none)
    (hpres : opts.preserveSelection = false) :
    (applyFolderPayload api st (some p) opts).1.currentOpenMode = OpenMode.folder ∧
    (applyFolderPayload api st (some p) opts).1.currentFolderPath = p.folderPath ∧
    (applyFolderPayload api st (some p) opts).1.folderFiles = p.files.getD [] ∧
    (applyFolderPayload api st (some p) opts).2.hasSelection = false ∧
    (applyFolderPayload api st (some p) opts).1.currentFilePath = none := by
  have hsel2 : (updateFolderFilesList (p.files.getD []) none).2 = false :=
    updateFolderFilesList_sel_none _
  simp only [applyFolderPayload, hsel, hpres, Bool.false_eq_true, false_and, if_false]
  rw [if_neg (by simp [hsel2])]
  by_cases hfiles : (updateFolderFilesList (p.files.getD []) none).1 = true
  · rw [if_neg (by simp [hfiles])]
    simp [renderFolderSelectionPrompt]
  · rw [if_pos (by simpa using hfiles)]
    simp [renderFolderEmptyState]

/-- Witness for C4 (amended) at the dialog-open scenario. -/
theorem enterFolderMode_fresh_witness :
    (applyFolderPayload (some fullAPI) priorSingleFileState (some docsFolderPayload)
      ⟨none, false, true⟩).1.currentOpenMode = OpenMode.folder ∧
    (applyFolderPayload (some fullAPI) priorSingleFileState (some docsFolderPayload)
      ⟨none, false, true⟩).1.currentFolderPath = some "/docs" ∧
    (applyFolderPayload (some fullAPI) priorSingleFileState (some docsFolderPayload)
      ⟨none, false, true⟩).1.currentFilePath = none := by
  have h := enterFolderMode_fresh (some fullAPI) priorSingleFileState docsFolderPayload
    ⟨none, false, true⟩ rfl rfl
  exact ⟨h.1, h.2.1, h.2.2.2.2⟩

/-! ## Geometry mapper (`getCurrentSourceLine`) -/

/-- JavaScript's `Math.round` on the (exact) rational inputs arising here:
round half away from zero for nonnegative inputs, i.e. `⌊q + 1/2⌋`. -/
def jsRound (q : ℚ) : ℤ := ⌊q + 1/2⌋

/-- An annotated rendered block as injected into the geometry mapper: its
bounding rectangle (`top`, `height`; `bottom = top + height` as for a
DOMRect) and its parsed `data-source-line` / `data-source-line-end`
attributes. -/
structure Block where
  top : ℚ
  height : ℚ
  startLine : ℤ
  endLine : ℤ
deriving DecidableEq, Repr

/-- The bottom edge of a block's rectangle. -/
def Block.bottom (b : Block) : ℚ := b.top + b.height

/-- The effective end line: `Math.max(startLine, endLineRaw)` from the
source. -/
def lineEnd (b : Block) : ℤ := max b.startLine b.endLine

/-- One iteration of the candidate scan in `getCurrentSourceLine`: skip
blocks whose bottom is at or above the threshold; a block whose top is at
or above the threshold replaces the containing candidate when its top is
greater; otherwise it replaces the first-below candidate when its top is
smaller. -/
def scanStep (t : ℚ) (st : Option Block × Option Block) (b : Block) :
    Option Block × Option Block :=
  if Block.bottom b ≤ t then st
  else if b.top ≤ t then
    match st.1 with
    | none => (some b, st.2)
    | some c => if c.top < b.top then (some b, st.2) else st
  else
    match st.2 with
    | none => (st.1, some b)
    | some f => if b.top < f.top then (st.1, some b) else st

/-- The candidate scan of `getCurrentSourceLine` over all annotated blocks
in document order: `(containingCandidate, firstBelowCandidate)`. -/
def scanCandidates (t : ℚ) (bs : List Block) : Option Block × Option Block :=
  bs.foldl (scanStep t) (none, none)

/-- `progress = clamp((threshold − blockTop) / blockHeight, 0, 1)`. -/
def clampedProgress (b : Block) (t : ℚ) : ℚ :=
  max 0 (min 1 ((t - b.top) / b.height))

/-- The interpolation step of `getCurrentSourceLine`:
`startLine + round(progress × (endLine − startLine))` clamped to
`[startLine, endLine]`. -/
def interpLine (b : Block) (t : ℚ) : ℤ :=
  max b.startLine (min (lineEnd b)
    (b.startLine + jsRound (clampedProgress b t * ((lineEnd b - b.startLine : ℤ) : ℚ))))

/-- `getCurrentSourceLine` from `src/main.js` on an injected block layout
and viewport-top threshold: prefer the containing candidate, else the
first-below candidate, else line 1; interpolate only for a containing
candidate with a multi-line range and positive height. -/
def resolveLine (bs : List Block) (t : ℚ) : ℤ :=
  match (scanCandidates t bs).1 with
  | some c =>
    if lineEnd c ≤ c.startLine ∨ c.height ≤ 0 then c.startLine
    else interpLine c t
  | none =>
    match (scanCandidates t bs).2 with
    | some f => f.startLine
    | none => 1

/-- The fixture of the spec scenario: blocks with line ranges
`{1,5}, {6,6}, {7,12}`, stacked at tops 0, 50, 60 with heights 50, 10, 40. -/
def scenarioBlocks : List Block :=
  [⟨0, 50, 1, 5⟩, ⟨50, 10, 6, 6⟩, ⟨60, 40, 7, 12⟩]

/-- C1 counterexample: with the threshold at 50% of block `{7,12}`'s
height (t = 80), the code resolves line 10, not 9 — `Math.round(2.5) = 3`
rounds half up, so `7 + round(0.5 × 5) = 10`. -/
theorem scenario_resolves_ten :
    resolveLine scenarioBlocks 80 = 10 ∧ resolveLine scenarioBlocks 80 ≠ 9 := by
  have h : resolveLine scenarioBlocks 80 = 10 := by
    unfold resolveLine scanCandidates scenarioBlocks
    norm_num [scanStep, Block.bottom, interpLine, lineEnd, clampedProgress, jsRound]
  exact ⟨h, by rw [h]; decide⟩

/-- C1 (amended): whenever the chosen candidate is a containing block
whose line range spans more than one line and whose rendered height is
positive, the resolved line is
`clamp(blockStart + round(progress × (blockEnd − blockStart)), blockStart,
blockEnd)` with `progress = clamp((threshold − blockTop)/blockHeight, 0,
1)` and `round` = JavaScript's `Math.round` (half rounds up); in the
scenario `{1,5},{6,6},{7,12}` at 50% of block `{7,12}` this yields
`7 + round(2.5) = 10`. -/
theorem resolveLine_containing_formula (bs : List Block) (t : ℚ) (c : Block)
    (hc : (scanCandidates t bs).1 = some c)
    (hspan : c.startLine < lineEnd c)
    (hh : 0 < c.height) :
    resolveLine bs t =
      max c.startLine (min (lineEnd c)
        (c.startLine + jsRound (clampedProgress c t * ((lineEnd c - c.startLine : ℤ) : ℚ)))) := by
  unfold resolveLine
  rw [hc]
  show (if lineEnd c ≤ c.startLine ∨ c.height ≤ 0 then c.startLine else interpLine c t) = _
  rw [if_neg (by push_neg; exact ⟨hspan, hh⟩)]
  rfl

/-- Witness for C1 (amended): the scenario fixture, threshold 80, where
the containing candidate is block `{7,12}` and the formula yields 10. -/
theorem resolveLine_containing_formula_witness :
    (scanCandidates 80 scenarioBlocks).1 = some ⟨60, 40, 7, 12⟩ ∧
    resolveLine scenarioBlocks 80 =
      max (7:ℤ) (min (lineEnd ⟨60, 40, 7, 12⟩)
        (7 + jsRound (clampedProgress ⟨60, 40, 7, 12⟩ 80 * ((lineEnd ⟨60, 40, 7, 12⟩ - 7 : ℤ) : ℚ)))) := by
  have hc : (scanCandidates 80 scenarioBlocks).1 = some ⟨60, 40, 7, 12⟩ := by
    unfold scanCandidates scenarioBlocks
    norm_num [scanStep, Block.bottom]
  refine ⟨hc, ?_⟩
  exact resolveLine_containing_formula scenarioBlocks 80 ⟨60, 40, 7, 12⟩ hc
    (by norm_num [lineEnd]) (by norm_num)

/-- A single annotated block `{2,2}` at rectangle top 0, height 10. -/
def singleBlockLayout : List Block := [⟨0, 10, 2, 2⟩]

/-- C5 counterexample: with one block `{2,2}` spanning pixels 0–10, the
resolved line at threshold 5 is 2, but at threshold 15 (past every block)
every block is discarded and the fallback line 1 is returned — the
resolved line decreases as the threshold moves down. -/
theorem resolveLine_not_monotone_cex :
    (5:ℚ) < 15 ∧ resolveLine singleBlockLayout 5 = 2 ∧
    resolveLine singleBlockLayout 15 = 1 ∧
    ¬ (resolveLine singleBlockLayout 5 ≤ resolveLine singleBlockLayout 15) := by
  have h5 : resolveLine singleBlockLayout 5 = 2 := by
    unfold resolveLine scanCandidates singleBlockLayout
    norm_num [scanStep, Block.bottom, lineEnd]
  have h15 : resolveLine singleBlockLayout 15 = 1 := by
    unfold resolveLine scanCandidates singleBlockLayout
    norm_num [scanStep, Block.bottom]
  refine ⟨by norm_num, h5, h15, ?_⟩
  rw [h5, h15]
  decide

/-- The well-formed-layout order on blocks: vertically disjoint in document
order, with non-overlapping, ordered line ranges. -/
def BlockOrdered (b c : Block) : Prop :=
  Block.bottom b ≤ c.top ∧ lineEnd b ≤ c.startLine

instance (b c : Block) : Decidable (BlockOrdered b c) := by
  unfold BlockOrdered
  infer_instance

/-- The selection `getCurrentSourceLine` makes on a sorted, disjoint
layout, written as a direct recursion: skip blocks scrolled past, stop at
the (unique) containing block, else at the first block below the
threshold. -/
def resolveSorted : List Block → ℚ → ℤ
  | [], _ => 1
  | b :: rest, t =>
    if Block.bottom b ≤ t then resolveSorted rest t
    else if b.top ≤ t then
      if lineEnd b ≤ b.startLine ∨ b.height ≤ 0 then b.startLine else interpLine b t
    else b.startLine

theorem foldl_scanStep_fst_of_containing (t : ℚ) (bs : List Block) (c : Block)
    (w : Option Block) (hall : ∀ b ∈ bs, ¬ b.top ≤ t) :
    (List.foldl (scanStep t) (some c, w) bs).1 = some c := by
  induction bs generalizing w with
  | nil => rfl
  | cons b rest ih =>
    have hb := hall b (List.mem_cons_self b rest)
    have hrest : ∀ x ∈ rest, ¬ x.top ≤ t := fun x hx => hall x (List.mem_cons_of_mem b hx)
    rw [List.foldl_cons]
    by_cases h1 : Block.bottom b ≤ t
    · rw [show scanStep t (some c, w) b = (some c, w) by simp [scanStep, h1]]
      exact ih w hrest
    · match w with
      | none =>
        rw [show scanStep t (some c, none) b = (some c, some b) by
          simp [scanStep, h1, hb]]
        exact ih _ hrest
      | some f =>
        by_cases h2 : b.top < f.top
        · rw [show scanStep t (some c, some f) b = (some c, some b) by
            simp [scanStep, h1, hb, h2]]
          exact ih _ hrest
        · rw [show scanStep t (some c, some f) b = (some c, some f) by
            simp [scanStep, h1, hb, h2]]
          exact ih _ hrest

theorem foldl_scanStep_below_keep (t : ℚ) (bs : List Block) (f : Block)
    (hall : ∀ b ∈ bs, ¬ b.top ≤ t ∧ ¬ b.top < f.top) :
    List.foldl (scanStep t) (none, some f) bs = (none, some f) := by
  induction bs with
  | nil => rfl
  | cons b rest ih =>
    obtain ⟨hb1, hb2⟩ := hall b (List.mem_cons_self b rest)
    have hrest : ∀ x ∈ rest, ¬ x.top ≤ t ∧ ¬ x.top < f.top :=
      fun x hx => hall x (List.mem_cons_of_mem b hx)
    rw [List.foldl_cons]
    by_cases h1 : Block.bottom b ≤ t
    · rw [show scanStep t (none, some f) b = (none, some f) by simp [scanStep, h1]]
      exact ih hrest
    · rw [show scanStep t (none, some f) b = (none, some f) by
        simp [scanStep, h1, hb1, hb2]]
      exact ih hrest

theorem resolveLine_eq_resolveSorted (bs : List Block) (t : ℚ)
    (hs : List.Pairwise BlockOrdered bs) (hh : ∀ b ∈ bs, 0 ≤ b.height) :
    resolveLine bs t = resolveSorted bs t := by
  induction bs with
  | nil => rfl
  | cons b rest ih =>
    rw [List.pairwise_cons] at hs
    obtain ⟨hb, hrest⟩ := hs
    have hhb := hh b (List.mem_cons_self b rest)
    have hhrest : ∀ x ∈ rest, 0 ≤ x.height := fun x hx => hh x (List.mem_cons_of_mem b hx)
    by_cases h1 : Block.bottom b ≤ t
    · have hskip : scanCandidates t (b :: rest) = scanCandidates t rest := by
        unfold scanCandidates
        rw [List.foldl_cons, show scanStep t (none, none) b = (none, none) by
          simp [scanStep, h1]]
      have heq : resolveLine (b :: rest) t = resolveLine rest t := by
        unfold resolveLine
        rw [hskip]
      rw [heq]
      simp only [resolveSorted]
      rw [if_pos h1]
      exact ih hrest hhrest
    · by_cases h2 : b.top ≤ t
      · have htb : t < Block.bottom b := lt_of_not_ge h1
        have hallrest : ∀ x ∈ rest, ¬ x.top ≤ t := by
          intro x hx
          exact not_le_of_lt (lt_of_lt_of_le htb (hb x hx).1)
        have hfst : (scanCandidates t (b :: rest)).1 = some b := by
          unfold scanCandidates
          rw [List.foldl_cons, show scanStep t (none, none) b = (some b, none) by
            simp [scanStep, h1, h2]]
          exact foldl_scanStep_fst_of_containing t rest b none hallrest
        unfold resolveLine
        rw [hfst]
        show (if lineEnd b ≤ b.startLine ∨ b.height ≤ 0 then b.startLine else interpLine b t) = _
        simp only [resolveSorted]
        rw [if_neg h1, if_pos h2]
      · have htb : t < Block.bottom b := lt_of_not_ge h1
        have hallrest : ∀ x ∈ rest, ¬ x.top ≤ t ∧ ¬ x.top < b.top := by
          intro x hx
          refine ⟨not_le_of_lt (lt_of_lt_of_le htb (hb x hx).1), ?_⟩
          have hbb : b.top ≤ Block.bottom b := by
            unfold Block.bottom
            linarith
          exact not_lt_of_ge (le_trans hbb (hb x hx).1)
        have hscan : scanCandidates t (b :: rest) = (none, some b) := by
          unfold scanCandidates
          rw [List.foldl_cons, show scanStep t (none, none) b = (none, some b) by
            simp [scanStep, h1, h2]]
          exact foldl_scanStep_below_keep t rest b hallrest
        unfold resolveLine
        rw [hscan]
        show b.startLine = _
        simp only [resolveSorted]
        rw [if_neg h1, if_neg h2]

theorem interpLine_ge_start (b : Block) (t : ℚ) : b.startLine ≤ interpLine b t :=
  le_max_left _ _

theorem interpLine_le_lineEnd (b : Block) (t : ℚ) : interpLine b t ≤ lineEnd b :=
  max_le (le_max_left _ _) (min_le_left _ _)

theorem resolveSorted_lower_bound (bs : List Block) (t : ℚ) (L : ℤ)
    (hall : ∀ b ∈ bs, L ≤ b.startLine)
    (hex : ∃ b ∈ bs, t < Block.bottom b) :
    L ≤ resolveSorted bs t := by
  induction bs with
  | nil => simp at hex
  | cons b rest ih =>
    have hLb := hall b (List.mem_cons_self b rest)
    have hallrest : ∀ x ∈ rest, L ≤ x.startLine :=
      fun x hx => hall x (List.mem_cons_of_mem b hx)
    simp only [resolveSorted]
    by_cases h1 : Block.bottom b ≤ t
    · rw [if_pos h1]
      apply ih hallrest
      obtain ⟨w, hw, hwt⟩ := hex
      rcases List.mem_cons.mp hw with hwb | hwrest
      · subst hwb
        exact absurd hwt (not_lt_of_ge h1)
      · exact ⟨w, hwrest, hwt⟩
    · rw [if_neg h1]
      by_cases h2 : b.top ≤ t
      · rw [if_pos h2]
        by_cases h3 : lineEnd b ≤ b.startLine ∨ b.height ≤ 0
        · rw [if_pos h3]
          exact hLb
        · rw [if_neg h3]
          exact le_trans hLb (interpLine_ge_start b t)
      · rw [if_neg h2]
        exact hLb

theorem interpLine_monotone (b : Block) (t₁ t₂ : ℚ) (h : t₁ ≤ t₂) (hh : 0 < b.height) :
    interpLine b t₁ ≤ interpLine b t₂ := by
  have hp : clampedProgress b t₁ ≤ clampedProgress b t₂ := by
    unfold clampedProgress
    have hdiv : (t₁ - b.top) / b.height ≤ (t₂ - b.top) / b.height :=
      (div_le_div_iff_of_pos_right hh).mpr (by linarith)
    exact max_le_max le_rfl (min_le_min le_rfl hdiv)
  have hcoeff : (0:ℚ) ≤ ((lineEnd b - b.startLine : ℤ) : ℚ) := by
    have hz : (0:ℤ) ≤ lineEnd b - b.startLine := sub_nonneg.mpr (le_max_left _ _)
    exact_mod_cast hz
  have hmul : clampedProgress b t₁ * ((lineEnd b - b.startLine : ℤ) : ℚ) ≤
      clampedProgress b t₂ * ((lineEnd b - b.startLine : ℤ) : ℚ) :=
    mul_le_mul_of_nonneg_right hp hcoeff
  have hr : jsRound (clampedProgress b t₁ * ((lineEnd b - b.startLine : ℤ) : ℚ)) ≤
      jsRound (clampedProgress b t₂ * ((lineEnd b - b.startLine : ℤ) : ℚ)) := by
    unfold jsRound
    exact Int.floor_le_floor (by linarith)
  unfold interpLine
  exact max_le_max le_rfl (min_le_min le_rfl (add_le_add_left hr _))

theorem resolveSorted_monotone (bs : List Block) (t₁ t₂ : ℚ)
    (hs : List.Pairwise BlockOrdered bs)
    (h12 : t₁ ≤ t₂)
    (hex : ∃ b ∈ bs, t₂ < Block.bottom b) :
    resolveSorted bs t₁ ≤ resolveSorted bs t₂ := by
  induction bs with
  | nil => simp at hex
  | cons b rest ih =>
    rw [List.pairwise_cons] at hs
    obtain ⟨hb, hrest⟩ := hs
    simp only [resolveSorted]
    by_cases hb2 : Block.bottom b ≤ t₂
    · have hexrest : ∃ x ∈ rest, t₂ < Block.bottom x := by
        obtain ⟨w, hw, hwt⟩ := hex
        rcases List.mem_cons.mp hw with hwb | hwrest
        · subst hwb
          exact absurd hwt (not_lt_of_ge hb2)
        · exact ⟨w, hwrest, hwt⟩
      rw [if_pos hb2]
      by_cases hb1 : Block.bottom b ≤ t₁
      · rw [if_pos hb1]
        exact ih hrest hexrest
      · rw [if_neg hb1]
        have hub : (if b.top ≤ t₁ then
            if lineEnd b ≤ b.startLine ∨ b.height ≤ 0 then b.startLine else interpLine b t₁
          else b.startLine) ≤ lineEnd b := by
          by_cases h2 : b.top ≤ t₁
          · rw [if_pos h2]
            by_cases h3 : lineEnd b ≤ b.startLine ∨ b.height ≤ 0
            · rw [if_pos h3]
              exact le_max_left _ _
            · rw [if_neg h3]
              exact interpLine_le_lineEnd b t₁
          · rw [if_neg h2]
            exact le_max_left _ _
        exact le_trans hub (resolveSorted_lower_bound rest t₂ (lineEnd b)
          (fun x hx => (hb x hx).2) hexrest)
    · have hb1 : ¬ Block.bottom b ≤ t₁ := fun h => hb2 (le_trans h h12)
      rw [if_neg hb1, if_neg hb2]
      by_cases ht2 : b.top ≤ t₂
      · by_cases ht1 : b.top ≤ t₁
        · rw [if_pos ht1, if_pos ht2]
          by_cases h3 : lineEnd b ≤ b.startLine ∨ b.height ≤ 0
          · rw [if_pos h3, if_pos h3]
          · rw [if_neg h3, if_neg h3]
            push_neg at h3
            exact interpLine_monotone b t₁ t₂ h12 h3.2
        · rw [if_neg ht1, if_pos ht2]
          by_cases h3 : lineEnd b ≤ b.startLine ∨ b.height ≤ 0
          · rw [if_pos h3]
          · rw [if_neg h3]
            exact interpLine_ge_start b t₂
      · have ht1 : ¬ b.top ≤ t₁ := fun h => ht2 (le_trans h h12)
        rw [if_neg ht1, if_neg ht2]

/-- C5 (amended): on a well-formed layout — blocks vertically disjoint and
in document order, with ordered non-overlapping line ranges and
nonnegative heights — the resolved line is monotonically non-decreasing in
the threshold as long as the threshold has not moved past the bottom of
every block.  (Without the last proviso the claim fails: past the last
block the function falls back to line 1, see the counterexample.) -/
theorem resolveLine_monotone (bs : List Block) (t₁ t₂ : ℚ)
    (hs : List.Pairwise BlockOrdered bs)
    (hh : ∀ b ∈ bs, 0 ≤ b.height)
    (h12 : t₁ < t₂)
    (hex : ∃ b ∈ bs, t₂ < Block.bottom b) :
    resolveLine bs t₁ ≤ resolveLine bs t₂ := by
  rw [resolveLine_eq_resolveSorted bs t₁ hs hh, resolveLine_eq_resolveSorted bs t₂ hs hh]
  exact resolveSorted_monotone bs t₁ t₂ hs (le_of_lt h12) hex

/-- Witness for C5 (amended): on the scenario fixture the resolved line at
threshold 70 is at most the one at threshold 80. -/
theorem resolveLine_monotone_witness :
    resolveLine scenarioBlocks 70 ≤ resolveLine scenarioBlocks 80 := by
  apply resolveLine_monotone scenarioBlocks 70 80
  · norm_num [scenarioBlocks, List.pairwise_cons, BlockOrdered, Block.bottom, lineEnd]
  · norm_num [scenarioBlocks]
  · norm_num
  · exact ⟨⟨60, 40, 7, 12⟩, by norm_num [scenarioBlocks], by norm_num [Block.bottom]⟩
